import Mathlib

/-!
Verification development for the WEBCOSMIC planet viewer.

The definitions below are a shallow embedding of the swap-controller core of
`src/components/PlanetViewer.jsx` (the authoritative variant; the two other
variants share `disposeObject3D` / `centerAndFit` verbatim):

* a scene-graph node model for `disposeObject3D` (lines 119-133) and the
  material-replacement traversal inside the load-success callback
  (lines 176-190);
* a rational-number bounding-box model for `centerAndFit` (lines 136-146),
  with the three.js transform convention (a node's matrix is
  translate(position) ∘ scale(scale), rotation identity here);
* a state machine for the `loadPlanet` closure (lines 149-204): the
  synchronous request path, the load-success callback and the load-failure
  callback, with in-flight loads tracked so that each issued load resolves
  at most once.

Machine integers do not occur: the load counter is a JS number used only for
equality and increment, modelled as Nat; geometry/material/texture identities
are Nat tags; coordinates are exact rationals standing in for the float math
(the claims speak of "within floating-point tolerance"; the counterexamples
below produce errors far beyond any tolerance).
-/

namespace WebCosmic

/-! ## Scene-graph node model -/

/-- A texture (`THREE.Texture`): identity tag plus the two fields the code
mutates (`map.colorSpace = THREE.SRGBColorSpace; map.needsUpdate = true`). -/
structure Texture where
  tid : Nat
  colorSpace : String := "linear"
  needsUpdate : Bool := false
deriving DecidableEq

/-- A material: identity tag, optional color/texture map, and the fields set
by the replacement `MeshStandardMaterial({ map, roughness: 0.7,
metalness: 0.1, emissive: new THREE.Color(0x000000) })`. -/
structure Material where
  mid : Nat
  map : Option Texture := none
  roughness : Rat := 1
  metalness : Rat := 0
  emissive : Nat := 0
deriving DecidableEq

/-- The `child.material` slot in JS: either a single (possibly null)
material, or an array of (possibly null) materials. -/
inductive MatSlot where
  | one : Option Material → MatSlot
  | many : List (Option Material) → MatSlot
deriving DecidableEq

/-- A scene-graph node: `isMesh` flag, optional geometry (identity tag),
material slot, children. `obj.traverse(cb)` visits the node then its
children, depth first. -/
inductive Node where
  | mk (isMesh : Bool) (geometry : Option Nat) (material : MatSlot)
       (children : List Node)

def Node.isMesh : Node → Bool
  | .mk m _ _ _ => m

def Node.geometry : Node → Option Nat
  | .mk _ g _ _ => g

def Node.material : Node → MatSlot
  | .mk _ _ slot _ => slot

def Node.children : Node → List Node
  | .mk _ _ _ cs => cs

/-- A GPU-side release event: `geometry.dispose()`, `material.dispose()`, or
`map.dispose()`. -/
inductive Resource where
  | geom : Nat → Resource
  | mat : Nat → Resource
  | tex : Nat → Resource
deriving DecidableEq

/-- `Array.isArray(child.material) ? child.material : [child.material]`. -/
def matsOf : MatSlot → List (Option Material)
  | .one m => [m]
  | .many ms => ms

/-- `mats.forEach((m) => { if (!m) return; if (m.map) m.map.dispose();
m.dispose(); })` — the release events it emits, in order. -/
def disposeMats : List (Option Material) → List Resource
  | [] => []
  | none :: rest => disposeMats rest
  | some m :: rest =>
      (match m.map with
       | some t => [Resource.tex t.tid]
       | none => []) ++ Resource.mat m.mid :: disposeMats rest

/-- The release events `disposeObject3D` emits for one visited node: nothing
for a non-mesh; for a mesh, its geometry (if any) then its materials. -/
def disposeVisit (n : Node) : List Resource :=
  if n.isMesh then
    (match n.geometry with
     | some g => [Resource.geom g]
     | none => []) ++ disposeMats (matsOf n.material)
  else []

/-- `disposeObject3D(obj)` (PlanetViewer.jsx lines 119-133): traverse the
subtree and release each mesh's geometry, materials and maps. Result: the
list of release events in traversal order. -/
def disposeObject3D : Node → List Resource
  | .mk m g slot cs =>
      disposeVisit (.mk m g slot cs) ++
        (cs.attach.map fun c => disposeObject3D c.val).flatten
termination_by n => sizeOf n
decreasing_by
all_goals
  have h := List.sizeOf_lt_of_mem c.2
  simp only [Node.mk.sizeOf_spec]
  omega


/-- Material identity tags of the non-null materials in a slot list. -/
def matIdsOf (ms : List (Option Material)) : List Nat :=
  ms.filterMap fun om => om.map Material.mid

/-- Texture identity tags of the maps of the non-null materials in a slot
list. -/
def texIdsOf (ms : List (Option Material)) : List Nat :=
  ms.filterMap fun om => (om.bind Material.map).map Texture.tid

/-- Geometry tags of the mesh descendants (the node included), in traversal
order. -/
def meshGeoms : Node → List Nat
  | .mk m g _ cs =>
      (if m then g.toList else []) ++
        (cs.attach.map fun c => meshGeoms c.val).flatten
termination_by n => sizeOf n
decreasing_by
all_goals
  have h := List.sizeOf_lt_of_mem c.2
  simp only [Node.mk.sizeOf_spec]
  omega


/-- Material tags referenced from mesh descendants, one occurrence per
referencing slot entry, in traversal order. -/
def meshMats : Node → List Nat
  | .mk m _ slot cs =>
      (if m then matIdsOf (matsOf slot) else []) ++
        (cs.attach.map fun c => meshMats c.val).flatten
termination_by n => sizeOf n
decreasing_by
all_goals
  have h := List.sizeOf_lt_of_mem c.2
  simp only [Node.mk.sizeOf_spec]
  omega


/-- Texture tags of maps referenced from mesh descendants, one occurrence per
referencing material, in traversal order. -/
def meshTexs : Node → List Nat
  | .mk m _ slot cs =>
      (if m then texIdsOf (matsOf slot) else []) ++
        (cs.attach.map fun c => meshTexs c.val).flatten
termination_by n => sizeOf n
decreasing_by
all_goals
  have h := List.sizeOf_lt_of_mem c.2
  simp only [Node.mk.sizeOf_spec]
  omega


/-- `child.material?.map || null` for a single-material slot. A JS array
material would resolve `.map` to `Array.prototype.map` (a function, not a
texture); that lies outside this value model, so theorems reading this on a
mesh carry the hypothesis that its slot is a single one. -/
def slotMap : MatSlot → Option Texture
  | .one none => none
  | .one (some m) => m.map
  | .many _ => none

/-- The material-replacement traversal of the load-success callback
(PlanetViewer.jsx lines 176-190): for every mesh, capture
`child.material?.map`, install a fresh `MeshStandardMaterial` with that map,
roughness 0.7, metalness 0.1, black emissive, and mark the captured map
srgb / needs-update. -/
def replaceMaterials : Node → Node
  | .mk m g slot cs =>
      if m then
        let mp := slotMap slot
        let mp' := mp.map fun t => { t with colorSpace := "srgb", needsUpdate := true }
        Node.mk m g
          (MatSlot.one (some
            { mid := 0, map := mp', roughness := 7/10, metalness := 1/10,
              emissive := 0 }))
          (cs.attach.map fun c => replaceMaterials c.val)
      else
        Node.mk m g slot (cs.attach.map fun c => replaceMaterials c.val)
termination_by n => sizeOf n
decreasing_by
all_goals
  have h := List.sizeOf_lt_of_mem c.2
  simp only [Node.mk.sizeOf_spec]
  omega


/-- Boolean "every node of the subtree satisfies p". -/
def allNodes (p : Node → Bool) : Node → Bool
  | .mk m g slot cs =>
      p (.mk m g slot cs) &&
        (cs.attach.map fun c => allNodes p c.val).all (fun b => b)
termination_by n => sizeOf n
decreasing_by
all_goals
  have h := List.sizeOf_lt_of_mem c.2
  simp only [Node.mk.sizeOf_spec]
  omega


/-- A mesh's slot is a single (possibly null) material. -/
def singleSlot (c : Node) : Bool :=
  !c.isMesh ||
    (match c.material with
     | .one _ => true
     | .many _ => false)

/-- A mesh carries the normalized standard material: roughness 0.7,
metalness 0.1, zero emissive. -/
def isStandardPBR (c : Node) : Bool :=
  !c.isMesh ||
    (match c.material with
     | .one (some mtl) =>
         mtl.roughness == 7/10 && mtl.metalness == 1/10 && mtl.emissive == 0
     | _ => false)

/-- Per mesh descendant, in traversal order, the identity tag of the map its
material slot exposes (read as the code reads it). -/
def meshMapTids : Node → List (Option Nat)
  | .mk m _ slot cs =>
      (if m then [(slotMap slot).map Texture.tid] else []) ++
        (cs.attach.map fun c => meshMapTids c.val).flatten
termination_by n => sizeOf n
decreasing_by
all_goals
  have h := List.sizeOf_lt_of_mem c.2
  simp only [Node.mk.sizeOf_spec]
  omega


/-! ## Bounding-box / fit model

`centerAndFit` only reads the object's world bounding box and writes the
object's `position` and `scale`.  A loaded root (`gltf.scene`) is a node whose
matrix is translate(position) ∘ scale(scale) (its rotation is identity); its
subtree content is abstracted as the axis-aligned box the content occupies in
the root's local frame, before the root's own transform is applied.  The
world box `THREE.Box3().setFromObject(object)` is then that content box taken
through the root's transform (corners scaled componentwise, then the
translation added). -/

/-- Exact-rational 3-vector standing in for `THREE.Vector3`. -/
structure Vec3 where
  x : Rat
  y : Rat
  z : Rat
deriving DecidableEq

instance : Add Vec3 :=
  ⟨fun a b => ⟨a.x + b.x, a.y + b.y, a.z + b.z⟩⟩

instance : Sub Vec3 :=
  ⟨fun a b => ⟨a.x - b.x, a.y - b.y, a.z - b.z⟩⟩

/-- Componentwise product (a diagonal scale applied to a point). -/
def Vec3.hmul (a b : Vec3) : Vec3 :=
  ⟨a.x * b.x, a.y * b.y, a.z * b.z⟩

/-- Componentwise minimum. -/
def Vec3.cmin (a b : Vec3) : Vec3 :=
  ⟨min a.x b.x, min a.y b.y, min a.z b.z⟩

/-- Componentwise maximum. -/
def Vec3.cmax (a b : Vec3) : Vec3 :=
  ⟨max a.x b.x, max a.y b.y, max a.z b.z⟩

/-- Axis-aligned box (`THREE.Box3`): `bmin ≤ bmax` componentwise for the
boxes this file builds. -/
structure Box3 where
  bmin : Vec3
  bmax : Vec3
deriving DecidableEq

/-- A loaded root node as `centerAndFit` sees it: its translation, its scale,
and the box its subtree content occupies in the root's local frame (`none`
when the subtree holds no vertices, giving three.js's empty box). -/
structure FitObject where
  position : Vec3
  scale : Vec3
  contentBox : Option Box3
deriving DecidableEq

/-- `new THREE.Box3().setFromObject(object)`: the content box taken through
the root's transform.  Scaling a box componentwise by a possibly-negative
diagonal swaps corners, so each bound is the componentwise min/max of the two
scaled corners; the translation is then added. -/
def setFromObject (o : FitObject) : Option Box3 :=
  o.contentBox.map fun b =>
    { bmin := o.position + (o.scale.hmul b.bmin).cmin (o.scale.hmul b.bmax)
      bmax := o.position + (o.scale.hmul b.bmin).cmax (o.scale.hmul b.bmax) }

/-- `box.getSize(target)`: zero for the empty box, else `max - min`. -/
def getSize : Option Box3 → Vec3
  | none => ⟨0, 0, 0⟩
  | some b => b.bmax - b.bmin

/-- `box.getCenter(target)`: zero for the empty box, else the midpoint. -/
def getCenter : Option Box3 → Vec3
  | none => ⟨0, 0, 0⟩
  | some b =>
      ⟨(b.bmin.x + b.bmax.x) / 2, (b.bmin.y + b.bmax.y) / 2,
       (b.bmin.z + b.bmax.z) / 2⟩

/-- `Math.max(size.x, size.y, size.z)`. -/
def maxDim3 (v : Vec3) : Rat :=
  max v.x (max v.y v.z)

/-- `centerAndFit(object)` (PlanetViewer.jsx lines 136-146): compute the
world box, subtract its center from `object.position`, then set a uniform
scale of `1.5 / maxDim` (or 1 when `maxDim = 0`). -/
def centerAndFit (o : FitObject) : FitObject :=
  let box := setFromObject o
  let size := getSize box
  let center := getCenter box
  let o1 : FitObject := { o with position := o.position - center }
  let maxDim := maxDim3 size
  let scale : Rat := if 0 < maxDim then 3/2 / maxDim else 1
  { o1 with scale := ⟨scale, scale, scale⟩ }

/-! ## Load state machine

The `loadPlanet` closure (PlanetViewer.jsx lines 149-204) owns a mutable
counter `currentLoadId`; the component owns `sceneRef`, `planetRef` and the
`loading` flag.  Planet nodes are identified by Nat tags.  `pending` records
the identifiers of issued loads that have not yet resolved, so that the step
relation only fires each callback once per issued load; `disposedLog` records
every node handed to `disposeObject3D`, most recent first. -/

structure ViewerState where
  sceneSet : Bool
  currentLoadId : Nat
  loading : Bool
  planetRef : Option Nat
  sceneNodes : List Nat
  pending : List Nat
  disposedLog : List Nat
deriving DecidableEq

/-- The state after mount: scene installed, counter 0, nothing loaded. -/
def initState : ViewerState :=
  { sceneSet := true, currentLoadId := 0, loading := false, planetRef := none
    sceneNodes := [], pending := [], disposedLog := [] }

/-- The synchronous body of `loadPlanet(file)`: bail out when `sceneRef` is
unset; set the loading flag; capture `++currentLoadId`; detach, dispose and
clear any previous planet; hand the new identifier to the loader (enter it
into `pending`). -/
def loadPlanet (s : ViewerState) : ViewerState :=
  if s.sceneSet then
    let loadId := s.currentLoadId + 1
    let s1 := { s with loading := true, currentLoadId := loadId }
    let s2 :=
      match s1.planetRef with
      | some p =>
          { s1 with sceneNodes := s1.sceneNodes.erase p
                    disposedLog := p :: s1.disposedLog
                    planetRef := none }
      | none => s1
    { s2 with pending := loadId :: s2.pending }
  else s

/-- The load-success callback for the load that captured `id` and produced
root node `n`: resolve the in-flight load; if `id` is stale, dispose `n` and
stop; else attach `n`, record it, clear the loading flag.  (The attached node
is the loaded root after material replacement and `centerAndFit`; those
in-place normalizations do not change its identity tag.) -/
def onLoadSuccess (s : ViewerState) (id n : Nat) : ViewerState :=
  let s0 := { s with pending := s.pending.erase id }
  if id ≠ s0.currentLoadId then
    { s0 with disposedLog := n :: s0.disposedLog }
  else
    { s0 with sceneNodes := n :: s0.sceneNodes
              planetRef := some n
              loading := false }

/-- The load-failure callback for the load that captured `id`: resolve the
in-flight load; clear the loading flag only when `id` is still current. -/
def onLoadFailure (s : ViewerState) (id : Nat) : ViewerState :=
  let s0 := { s with pending := s.pending.erase id }
  if id = s0.currentLoadId then
    { s0 with loading := false }
  else s0

/-- One event of the host event loop: a `loadPlanet` call, or a callback of
an in-flight load (each issued identifier resolves at most once). -/
inductive Step : ViewerState → ViewerState → Prop
  | request (s : ViewerState) : Step s (loadPlanet s)
  | success (s : ViewerState) (id n : Nat) (h : id ∈ s.pending) :
      Step s (onLoadSuccess s id n)
  | failure (s : ViewerState) (id : Nat) (h : id ∈ s.pending) :
      Step s (onLoadFailure s id)

/-- States the viewer can be in after any interleaving of requests and load
completions. -/
def Reachable (s : ViewerState) : Prop :=
  Relation.ReflTransGen Step initState s

/-- The scene's attached-planet set that `planetRef` should mirror. -/
def planetList : Option Nat → List Nat
  | none => []
  | some p => [p]

/-! ## Frame / resize model

The animation loop (PlanetViewer.jsx lines 68-74) and the resize handler
(lines 77-86).  `planetRotY` is the y-rotation of the displayed node (if
any); camera and renderer dimensions are the fields the resize handler
writes. -/

structure FrameState where
  viewer : ViewerState
  planetRotY : Rat
  cameraAspect : Rat
  rendererWidth : Rat
  rendererHeight : Rat
  controlsUpdates : Nat
  framesRendered : Nat
deriving DecidableEq

/-- One tick of `animate`: rotate the displayed planet (when one exists) by
0.001 radians about y, advance the controls damping, render a frame. -/
def animate (f : FrameState) : FrameState :=
  let f1 :=
    if f.viewer.planetRef.isSome then
      { f with planetRotY := f.planetRotY + 1/1000 }
    else f
  { f1 with controlsUpdates := f1.controlsUpdates + 1
            framesRendered := f1.framesRendered + 1 }

/-- `handleResize`: bail out when the mount is gone; else write the camera
aspect and renderer size from the mount's current dimensions. -/
def handleResize (f : FrameState) (mount : Option (Rat × Rat)) : FrameState :=
  match mount with
  | none => f
  | some (w, h) =>
      { f with cameraAspect := w / h, rendererWidth := w, rendererHeight := h }

/-- The state invariant the event loop maintains: in-flight identifiers are
distinct and no newer than the current one; once a planet is displayed the
current load has resolved; the scene's attached-planet set mirrors
`planetRef`. -/
def Inv (s : ViewerState) : Prop :=
  s.pending.Nodup ∧
  (∀ i ∈ s.pending, i ≤ s.currentLoadId) ∧
  (∀ p, s.planetRef = some p → s.currentLoadId ∉ s.pending) ∧
  s.sceneNodes = planetList s.planetRef

/-! ## Concrete inputs used to exercise the theorems -/

/-- Two meshes sharing one material (tag 5) — material sharing is routine in
loaded models. -/
def exShared : Node :=
  Node.mk false none (.one none)
    [ Node.mk true (some 1) (.one (some { mid := 5 })) [],
      Node.mk true (some 2) (.one (some { mid := 5 })) [] ]

/-- A subtree exercising every edge shape the disposal routine guards:
a mesh with no geometry and a null material, a mesh with a mapless material,
a mesh with an array of materials (one null, one mapped, one mapless), and a
nested mesh with a mapped material.  All tags distinct. -/
def exEdge : Node :=
  Node.mk false none (.one none)
    [ Node.mk true none (.one none) [],
      Node.mk true (some 1) (.one (some { mid := 1 })) [],
      Node.mk true (some 2)
        (.many [some { mid := 2, map := some { tid := 21 } }, none,
                some { mid := 3 }]) [],
      Node.mk false none (.one none)
        [ Node.mk true (some 3)
            (.one (some { mid := 4, map := some { tid := 22 } })) [] ] ]

/-- A mesh tree with one mapped single-slot material and one null-material
mesh, for the material-replacement theorem. -/
def exTextured : Node :=
  Node.mk false none (.one none)
    [ Node.mk true (some 1) (.one (some { mid := 9, map := some { tid := 7 } })) [],
      Node.mk true (some 2) (.one none) [] ]

/-- A fresh loaded root (identity transform) whose content box `[1,3]³` is
not centered on the root's local origin. -/
def exFitOff : FitObject :=
  { position := ⟨0, 0, 0⟩, scale := ⟨1, 1, 1⟩
    contentBox := some ⟨⟨1, 1, 1⟩, ⟨3, 3, 3⟩⟩ }

/-- A translated root whose content box `[-2,2]³` is centered on the root's
local origin. -/
def exFitSym : FitObject :=
  { position := ⟨5, 1, 0⟩, scale := ⟨1, 1, 1⟩
    contentBox := some ⟨⟨-2, -2, -2⟩, ⟨2, 2, 2⟩⟩ }

/-- A fresh loaded root with content box `[0,1]×[0,2]×[0,4]` (max dimension
4). -/
def exFitUnit : FitObject :=
  { position := ⟨2, 0, 1⟩, scale := ⟨1, 1, 1⟩
    contentBox := some ⟨⟨0, 0, 0⟩, ⟨1, 2, 4⟩⟩ }

/-- A torn-down viewer: the scene reference is unset. -/
def exTornDown : ViewerState :=
  { initState with
    sceneSet := false
    currentLoadId := 3
    planetRef := some 4
    sceneNodes := [4] }

/-! ## Unfolding lemmas for the subtree recursions -/

theorem disposeObject3D_eq (m : Bool) (g : Option Nat) (slot : MatSlot)
    (cs : List Node) :
    disposeObject3D (.mk m g slot cs) =
      disposeVisit (.mk m g slot cs) ++ (cs.map disposeObject3D).flatten := by
  rw [disposeObject3D, List.attach_map_val]

theorem meshGeoms_eq (m : Bool) (g : Option Nat) (slot : MatSlot)
    (cs : List Node) :
    meshGeoms (.mk m g slot cs) =
      (if m then g.toList else []) ++ (cs.map meshGeoms).flatten := by
  rw [meshGeoms, List.attach_map_val]

theorem meshMats_eq (m : Bool) (g : Option Nat) (slot : MatSlot)
    (cs : List Node) :
    meshMats (.mk m g slot cs) =
      (if m then matIdsOf (matsOf slot) else []) ++
        (cs.map meshMats).flatten := by
  rw [meshMats, List.attach_map_val]

theorem meshTexs_eq (m : Bool) (g : Option Nat) (slot : MatSlot)
    (cs : List Node) :
    meshTexs (.mk m g slot cs) =
      (if m then texIdsOf (matsOf slot) else []) ++
        (cs.map meshTexs).flatten := by
  rw [meshTexs, List.attach_map_val]

theorem replaceMaterials_eq (m : Bool) (g : Option Nat) (slot : MatSlot)
    (cs : List Node) :
    replaceMaterials (.mk m g slot cs) =
      (if m then
        Node.mk m g
          (MatSlot.one (some
            { mid := 0
              map := (slotMap slot).map fun t =>
                { t with colorSpace := "srgb", needsUpdate := true }
              roughness := 7/10, metalness := 1/10, emissive := 0 }))
          (cs.map replaceMaterials)
      else
        Node.mk m g slot (cs.map replaceMaterials)) := by
  rw [replaceMaterials]
  by_cases hm : m = true
  · simp only [hm, if_true, List.attach_map_val]
  · simp only [eq_false_of_ne_true hm, if_false, List.attach_map_val, Bool.false_eq_true]

theorem allNodes_eq (p : Node → Bool) (m : Bool) (g : Option Nat)
    (slot : MatSlot) (cs : List Node) :
    allNodes p (.mk m g slot cs) =
      (p (.mk m g slot cs) && (cs.map (allNodes p)).all (fun b => b)) := by
  rw [allNodes, List.attach_map_val]

theorem meshMapTids_eq (m : Bool) (g : Option Nat) (slot : MatSlot)
    (cs : List Node) :
    meshMapTids (.mk m g slot cs) =
      (if m then [(slotMap slot).map Texture.tid] else []) ++
        (cs.map meshMapTids).flatten := by
  rw [meshMapTids, List.attach_map_val]

/-- Subtree induction: to prove a property of every node it suffices to
prove it for a node given it for all its children. -/
theorem Node.inductionOn {P : Node → Prop}
    (h : ∀ m g slot cs, (∀ c ∈ cs, P c) → P (Node.mk m g slot cs)) :
    ∀ n, P n
  | .mk m g slot cs => h m g slot cs fun c hc => Node.inductionOn h c
termination_by n => sizeOf n
decreasing_by
all_goals
  have h2 := List.sizeOf_lt_of_mem hc
  simp only [Node.mk.sizeOf_spec]
  omega

/-! ## Counting the disposal routine's release events -/

theorem count_disposeMats_mat (i : Nat) :
    ∀ ms : List (Option Material),
      (disposeMats ms).count (Resource.mat i) = (matIdsOf ms).count i
  | [] => rfl
  | none :: rest => by
      simp [disposeMats, matIdsOf, count_disposeMats_mat i rest]
  | some mtl :: rest => by
      have ih := count_disposeMats_mat i rest
      cases hmp : mtl.map <;>
        simp [disposeMats, matIdsOf, hmp, List.count_cons, List.count_append,
          ih, Nat.add_comm]

theorem count_disposeMats_tex (t : Nat) :
    ∀ ms : List (Option Material),
      (disposeMats ms).count (Resource.tex t) = (texIdsOf ms).count t
  | [] => rfl
  | none :: rest => by
      simp [disposeMats, texIdsOf, count_disposeMats_tex t rest]
  | some mtl :: rest => by
      have ih := count_disposeMats_tex t rest
      cases hmp : mtl.map <;>
        simp [disposeMats, texIdsOf, hmp, List.count_cons, List.count_append,
          ih, Nat.add_comm]

theorem count_disposeMats_geom (g : Nat) :
    ∀ ms : List (Option Material),
      (disposeMats ms).count (Resource.geom g) = 0
  | [] => rfl
  | none :: rest => by
      simp [disposeMats, count_disposeMats_geom g rest]
  | some mtl :: rest => by
      have ih := count_disposeMats_geom g rest
      cases hmp : mtl.map <;>
        simp [disposeMats, hmp, List.count_cons, List.count_append, ih]

theorem count_flatten_eq {α β : Type} [DecidableEq α] [DecidableEq β]
    (f : Node → List α) (g : Node → List β) (a : α) (b : β) :
    ∀ cs : List Node, (∀ c ∈ cs, (f c).count a = (g c).count b) →
      ((cs.map f).flatten).count a = ((cs.map g).flatten).count b
  | [], _ => rfl
  | c :: rest, h => by
      simp only [List.map_cons, List.flatten_cons, List.count_append]
      rw [h c (List.mem_cons_self c rest),
        count_flatten_eq f g a b rest fun x hx => h x (List.mem_cons_of_mem c hx)]

theorem dispose_count_geom :
    ∀ n : Node, ∀ g : Nat,
      (disposeObject3D n).count (Resource.geom g) = (meshGeoms n).count g := by
  refine Node.inductionOn ?_
  intro m gg slot cs ih g
  rw [disposeObject3D_eq, meshGeoms_eq]
  simp only [List.count_append]
  rw [count_flatten_eq disposeObject3D meshGeoms (Resource.geom g) g cs
    fun c hc => ih c hc g]
  have hvisit : (disposeVisit (.mk m gg slot cs)).count (Resource.geom g) =
      ((if m then gg.toList else [] : List Nat)).count g := by
    cases m <;> cases gg <;>
      simp [disposeVisit, Node.isMesh, Node.geometry, Node.material,
        count_disposeMats_geom, List.count_cons]
  omega

theorem dispose_count_mat :
    ∀ n : Node, ∀ i : Nat,
      (disposeObject3D n).count (Resource.mat i) = (meshMats n).count i := by
  refine Node.inductionOn ?_
  intro m gg slot cs ih i
  rw [disposeObject3D_eq, meshMats_eq]
  simp only [List.count_append]
  rw [count_flatten_eq disposeObject3D meshMats (Resource.mat i) i cs
    fun c hc => ih c hc i]
  have hvisit : (disposeVisit (.mk m gg slot cs)).count (Resource.mat i) =
      ((if m then matIdsOf (matsOf slot) else [] : List Nat)).count i := by
    cases m <;> cases gg <;>
      simp [disposeVisit, Node.isMesh, Node.geometry, Node.material,
        count_disposeMats_mat, List.count_cons]
  omega

theorem dispose_count_tex :
    ∀ n : Node, ∀ t : Nat,
      (disposeObject3D n).count (Resource.tex t) = (meshTexs n).count t := by
  refine Node.inductionOn ?_
  intro m gg slot cs ih t
  rw [disposeObject3D_eq, meshTexs_eq]
  simp only [List.count_append]
  rw [count_flatten_eq disposeObject3D meshTexs (Resource.tex t) t cs
    fun c hc => ih c hc t]
  have hvisit : (disposeVisit (.mk m gg slot cs)).count (Resource.tex t) =
      ((if m then texIdsOf (matsOf slot) else [] : List Nat)).count t := by
    cases m <;> cases gg <;>
      simp [disposeVisit, Node.isMesh, Node.geometry, Node.material,
        count_disposeMats_tex, List.count_cons]
  omega

/-- C5, counterexample: the claim that the disposal routine releases every
distinct material reachable from the node exactly once is false — on a node
with two meshes sharing material 5 (a routine shape in loaded models), the
routine calls `dispose()` on that material twice, once per referencing
mesh. -/
theorem dispose_shared_material_cex :
    5 ∈ meshMats exShared ∧
    (disposeObject3D exShared).count (Resource.mat 5) = 2 ∧
    (disposeObject3D exShared).count (Resource.mat 5) ≠ 1 := by
  refine ⟨?_, ?_, ?_⟩ <;>
    simp [exShared, disposeObject3D_eq, meshMats_eq, disposeVisit, disposeMats,
      matsOf, matIdsOf, Node.isMesh, Node.geometry, Node.material,
      List.count_cons]

/-- C5 (amended): the disposal routine emits one geometry release per mesh
descendant owning a geometry, one material release per (non-null) material
reference of a mesh descendant, and one map release per mapped such material
— so when no geometry, material or map is shared (the reachable tags are
pairwise distinct), each one is released exactly once; a shared material or
map is instead released once per referencing mesh.  The routine is total on
all the edge shapes: mesh without geometry, null material, material without
map, arrays of materials. -/
theorem dispose_releases_each_resource_once (n : Node)
    (hg : (meshGeoms n).Nodup) (hm : (meshMats n).Nodup)
    (ht : (meshTexs n).Nodup) :
    (∀ g ∈ meshGeoms n, (disposeObject3D n).count (Resource.geom g) = 1) ∧
    (∀ i ∈ meshMats n, (disposeObject3D n).count (Resource.mat i) = 1) ∧
    (∀ t ∈ meshTexs n, (disposeObject3D n).count (Resource.tex t) = 1) := by
  refine ⟨fun g hgm => ?_, fun i him => ?_, fun t htm => ?_⟩
  · rw [dispose_count_geom]
    exact List.count_eq_one_of_mem hg hgm
  · rw [dispose_count_mat]
    exact List.count_eq_one_of_mem hm him
  · rw [dispose_count_tex]
    exact List.count_eq_one_of_mem ht htm

/-- C5, witness: on the edge-shape tree (mesh with no geometry and null
material, mapless material, array material with a null entry, nested mapped
material; all tags distinct) each reachable geometry, material and map is
released exactly once. -/
theorem dispose_releases_each_resource_once_witness :
    (meshGeoms exEdge).Nodup ∧ (meshMats exEdge).Nodup ∧
    (meshTexs exEdge).Nodup ∧
    (disposeObject3D exEdge).count (Resource.geom 3) = 1 ∧
    (disposeObject3D exEdge).count (Resource.mat 2) = 1 ∧
    (disposeObject3D exEdge).count (Resource.tex 22) = 1 := by
  have hgl : meshGeoms exEdge = [1, 2, 3] := by
    simp [exEdge, meshGeoms_eq]
  have hml : meshMats exEdge = [1, 2, 3, 4] := by
    simp [exEdge, meshMats_eq, matIdsOf, matsOf, Node.material]
  have htl : meshTexs exEdge = [21, 22] := by
    simp [exEdge, meshTexs_eq, texIdsOf, matsOf, Node.material]
  have hg : (meshGeoms exEdge).Nodup := by rw [hgl]; decide
  have hm : (meshMats exEdge).Nodup := by rw [hml]; decide
  have ht : (meshTexs exEdge).Nodup := by rw [htl]; decide
  have h := dispose_releases_each_resource_once exEdge hg hm ht
  refine ⟨hg, hm, ht, ?_, ?_, ?_⟩
  · exact h.1 3 (by rw [hgl]; decide)
  · exact h.2.1 2 (by rw [hml]; decide)
  · exact h.2.2 22 (by rw [htl]; decide)

/-! ## Material replacement -/

theorem allNodes_mk_iff (p : Node → Bool) (m : Bool) (g : Option Nat)
    (slot : MatSlot) (cs : List Node) :
    allNodes p (.mk m g slot cs) = true ↔
      p (.mk m g slot cs) = true ∧ ∀ c ∈ cs, allNodes p c = true := by
  rw [allNodes_eq]
  simp [List.all_eq_true]

/-- C7: on any loaded root whose meshes carry single material slots, the
replacement traversal leaves every mesh descendant with a standard material
of roughness 0.7, metalness 0.1 and zero emissive, and the map each mesh's
material exposes is the one its original material exposed (same texture,
per mesh, in traversal order). -/
theorem replaceMaterials_standardizes :
    ∀ n : Node, allNodes singleSlot n = true →
      allNodes isStandardPBR (replaceMaterials n) = true ∧
      meshMapTids (replaceMaterials n) = meshMapTids n := by
  refine Node.inductionOn ?_
  intro m g slot cs ih h
  obtain ⟨hroot, hcs⟩ := (allNodes_mk_iff singleSlot m g slot cs).mp h
  have hch := fun c hc => ih c hc (hcs c hc)
  rw [replaceMaterials_eq]
  by_cases hm : m = true
  · subst hm
    rw [if_pos rfl]
    constructor
    · rw [allNodes_mk_iff]
      refine ⟨by simp [isStandardPBR, Node.isMesh, Node.material], ?_⟩
      intro c' hc'
      obtain ⟨c, hc, rfl⟩ := List.mem_map.mp hc'
      exact (hch c hc).1
    · rw [meshMapTids_eq, meshMapTids_eq, if_pos rfl, if_pos rfl]
      have htail : (cs.map replaceMaterials).map meshMapTids =
          cs.map meshMapTids := by
        rw [List.map_map]
        exact List.map_congr_left fun c hc => (hch c hc).2
      rw [htail]
      congr 1
      cases hsm : slotMap slot <;> simp [slotMap, hsm]
  · have hm' : m = false := eq_false_of_ne_true hm
    subst hm'
    rw [if_neg (by simp)]
    constructor
    · rw [allNodes_mk_iff]
      refine ⟨by simp [isStandardPBR, Node.isMesh], ?_⟩
      intro c' hc'
      obtain ⟨c, hc, rfl⟩ := List.mem_map.mp hc'
      exact (hch c hc).1
    · rw [meshMapTids_eq, meshMapTids_eq]
      simp only [if_neg (by simp : ¬(false = true))]
      have htail : (cs.map replaceMaterials).map meshMapTids =
          cs.map meshMapTids := by
        rw [List.map_map]
        exact List.map_congr_left fun c hc => (hch c hc).2
      rw [List.nil_append, List.nil_append, htail]

/-- C7, witness: on the two-mesh tree (one mapped material, one null
material), the replaced meshes carry the standard material and expose the
original map tags `[some 7, none]`. -/
theorem replaceMaterials_standardizes_witness :
    allNodes singleSlot exTextured = true ∧
    allNodes isStandardPBR (replaceMaterials exTextured) = true ∧
    meshMapTids (replaceMaterials exTextured) = [some 7, none] := by
  have hs : allNodes singleSlot exTextured = true := by
    simp [exTextured, allNodes_eq, singleSlot, Node.isMesh, Node.material]
  have h := replaceMaterials_standardizes exTextured hs
  refine ⟨hs, h.1, ?_⟩
  rw [h.2]
  simp [exTextured, meshMapTids_eq, slotMap, Node.isMesh, Node.material]

/-! ## Centering and fit-scaling -/

theorem Vec3.add_def (a b : Vec3) :
    a + b = ⟨a.x + b.x, a.y + b.y, a.z + b.z⟩ := rfl

theorem Vec3.sub_def (a b : Vec3) :
    a - b = ⟨a.x - b.x, a.y - b.y, a.z - b.z⟩ := rfl

theorem qmin_add_qmax (a b : Rat) : min a b + max a b = a + b := by
  rcases le_total a b with h | h
  · rw [min_eq_left h, max_eq_right h]
  · rw [min_eq_right h, max_eq_left h]
    ring

theorem qmul_min (c a b : Rat) (hc : 0 ≤ c) :
    min (c * a) (c * b) = c * min a b := by
  rcases le_total a b with h | h
  · rw [min_eq_left h, min_eq_left (mul_le_mul_of_nonneg_left h hc)]
  · rw [min_eq_right h, min_eq_right (mul_le_mul_of_nonneg_left h hc)]

theorem qmul_max (c a b : Rat) (hc : 0 ≤ c) :
    max (c * a) (c * b) = c * max a b := by
  rcases le_total a b with h | h
  · rw [max_eq_right h, max_eq_right (mul_le_mul_of_nonneg_left h hc)]
  · rw [max_eq_left h, max_eq_left (mul_le_mul_of_nonneg_left h hc)]

theorem maxDim3_mul (c : Rat) (v : Vec3) (hc : 0 ≤ c) :
    maxDim3 ⟨c * v.x, c * v.y, c * v.z⟩ = c * maxDim3 v := by
  unfold maxDim3
  rw [qmul_max c v.y v.z hc, qmul_max c v.x (max v.y v.z) hc]

/-- `centerAndFit` spelled out as a record: position re-centered against the
pre-scale world box, uniform scale `1.5 / maxDim` (1 when degenerate),
content untouched. -/
theorem centerAndFit_def (o : FitObject) :
    centerAndFit o =
      { position := o.position - getCenter (setFromObject o)
        scale :=
          ⟨(if 0 < maxDim3 (getSize (setFromObject o)) then
              3/2 / maxDim3 (getSize (setFromObject o)) else 1),
           (if 0 < maxDim3 (getSize (setFromObject o)) then
              3/2 / maxDim3 (getSize (setFromObject o)) else 1),
           (if 0 < maxDim3 (getSize (setFromObject o)) then
              3/2 / maxDim3 (getSize (setFromObject o)) else 1)⟩
        contentBox := o.contentBox } := rfl

/-- The world box's center: the root position plus the scaled content-box
midpoint, componentwise. -/
theorem getCenter_setFromObject (o : FitObject) (b : Box3)
    (hcb : o.contentBox = some b) :
    getCenter (setFromObject o) =
      ⟨o.position.x + o.scale.x * (b.bmin.x + b.bmax.x) / 2,
       o.position.y + o.scale.y * (b.bmin.y + b.bmax.y) / 2,
       o.position.z + o.scale.z * (b.bmin.z + b.bmax.z) / 2⟩ := by
  simp only [setFromObject, hcb, Option.map_some', getCenter, Vec3.hmul,
    Vec3.cmin, Vec3.cmax, Vec3.add_def, Vec3.mk.injEq]
  refine ⟨?_, ?_, ?_⟩
  · linear_combination (qmin_add_qmax (o.scale.x * b.bmin.x) (o.scale.x * b.bmax.x)) / 2
  · linear_combination (qmin_add_qmax (o.scale.y * b.bmin.y) (o.scale.y * b.bmax.y)) / 2
  · linear_combination (qmin_add_qmax (o.scale.z * b.bmin.z) (o.scale.z * b.bmax.z)) / 2

/-- The world box's size under a componentwise-nonnegative scale: the scaled
content widths. -/
theorem getSize_setFromObject (o : FitObject) (b : Box3)
    (hcb : o.contentBox = some b)
    (hx : 0 ≤ o.scale.x) (hy : 0 ≤ o.scale.y) (hz : 0 ≤ o.scale.z) :
    getSize (setFromObject o) =
      ⟨o.scale.x * (max b.bmin.x b.bmax.x - min b.bmin.x b.bmax.x),
       o.scale.y * (max b.bmin.y b.bmax.y - min b.bmin.y b.bmax.y),
       o.scale.z * (max b.bmin.z b.bmax.z - min b.bmin.z b.bmax.z)⟩ := by
  simp only [setFromObject, hcb, Option.map_some', getSize, Vec3.hmul,
    Vec3.cmin, Vec3.cmax, Vec3.add_def, Vec3.sub_def, Vec3.mk.injEq]
  rw [qmul_min o.scale.x _ _ hx, qmul_max o.scale.x _ _ hx,
    qmul_min o.scale.y _ _ hy, qmul_max o.scale.y _ _ hy,
    qmul_min o.scale.z _ _ hz, qmul_max o.scale.z _ _ hz]
  refine ⟨by ring, by ring, by ring⟩

/-- C3, counterexample: on a fresh (identity-transform) root with content
box `[1,3]³`, the normalized bounding-box center sits at `(-1/2,-1/2,-1/2)`,
not at the origin.  `centerAndFit` translates so the box center reaches the
origin, but then re-scales about the node's local origin — not about the box
center — which drags the box off center again whenever the content box is
not centered on the node origin. -/
theorem centerAndFit_offcenter_cex :
    getCenter (setFromObject (centerAndFit exFitOff)) =
      ⟨-(1/2), -(1/2), -(1/2)⟩ ∧
    getCenter (setFromObject (centerAndFit exFitOff)) ≠ ⟨0, 0, 0⟩ := by
  have h : getCenter (setFromObject (centerAndFit exFitOff)) =
      ⟨-(1/2), -(1/2), -(1/2)⟩ := by
    norm_num [exFitOff, centerAndFit, setFromObject, getSize, getCenter,
      maxDim3, Vec3.hmul, Vec3.cmin, Vec3.cmax, Vec3.add_def, Vec3.sub_def,
      min_def, max_def]
  refine ⟨h, ?_⟩
  rw [h]
  intro hcontra
  have hx := congrArg Vec3.x hcontra
  norm_num at hx

/-- C3 (amended): after normalization the bounding-box center lies at the
origin provided the model's content box is centered on the root's local
origin (for such models translation and re-scaling commute); in general the
re-scaling step moves the center to `(newScale - oldScale) ⊙ contentCenter`,
as the counterexample shows. -/
theorem centerAndFit_centers_centered_content (o : FitObject)
    (h : getCenter o.contentBox = ⟨0, 0, 0⟩) :
    getCenter (setFromObject (centerAndFit o)) = ⟨0, 0, 0⟩ := by
  cases hcb : o.contentBox with
  | none =>
      rw [centerAndFit_def]
      simp [setFromObject, hcb, getCenter]
  | some b =>
      rw [hcb] at h
      simp only [getCenter, Vec3.mk.injEq] at h
      obtain ⟨hx, hy, hz⟩ := h
      have hx' : b.bmin.x + b.bmax.x = 0 := by
        field_simp at hx
        linarith
      have hy' : b.bmin.y + b.bmax.y = 0 := by
        field_simp at hy
        linarith
      have hz' : b.bmin.z + b.bmax.z = 0 := by
        field_simp at hz
        linarith
      have hco : getCenter (setFromObject o) = o.position := by
        rw [getCenter_setFromObject o b hcb, hx', hy', hz']
        simp
      have hcb' : (centerAndFit o).contentBox = some b := by
        rw [centerAndFit_def]
        exact hcb
      rw [getCenter_setFromObject (centerAndFit o) b hcb', hx', hy', hz',
        centerAndFit_def]
      simp [hco, Vec3.sub_def]

/-- C3, witness: a translated root whose content box `[-2,2]³` is centered
on its local origin ends up with its world box centered at the origin. -/
theorem centerAndFit_centers_centered_content_witness :
    getCenter exFitSym.contentBox = ⟨0, 0, 0⟩ ∧
    getCenter (setFromObject (centerAndFit exFitSym)) = ⟨0, 0, 0⟩ := by
  have h0 : getCenter exFitSym.contentBox = ⟨0, 0, 0⟩ := by
    norm_num [exFitSym, getCenter]
  exact ⟨h0, centerAndFit_centers_centered_content exFitSym h0⟩

/-- C4: on a fresh loaded root (identity scale, as `GLTFLoader` delivers),
when the pre-scale world box has maximum dimension `d > 0`, `centerAndFit`
sets the uniform scale `1.5 / d` and the post-scale maximum box dimension is
exactly the target size `1.5`; when `d = 0` (degenerate model) the scale is
left at 1. -/
theorem centerAndFit_scale_spec (o : FitObject) (hsc : o.scale = ⟨1, 1, 1⟩) :
    (0 < maxDim3 (getSize (setFromObject o)) →
      (centerAndFit o).scale =
        ⟨3/2 / maxDim3 (getSize (setFromObject o)),
         3/2 / maxDim3 (getSize (setFromObject o)),
         3/2 / maxDim3 (getSize (setFromObject o))⟩ ∧
      maxDim3 (getSize (setFromObject (centerAndFit o))) = 3/2) ∧
    (maxDim3 (getSize (setFromObject o)) = 0 →
      (centerAndFit o).scale = ⟨1, 1, 1⟩) := by
  constructor
  · intro hd
    refine ⟨by rw [centerAndFit_def]; simp only [if_pos hd], ?_⟩
    cases hcb : o.contentBox with
    | none =>
        exfalso
        have h0 : maxDim3 (getSize (setFromObject o)) = 0 := by
          simp [setFromObject, hcb, getSize, maxDim3]
        rw [h0] at hd
        exact lt_irrefl 0 hd
    | some b =>
        have hone : (0:Rat) ≤ o.scale.x ∧ (0:Rat) ≤ o.scale.y ∧
            (0:Rat) ≤ o.scale.z := by
          rw [hsc]
          norm_num
        have hs1 : getSize (setFromObject o) =
            ⟨max b.bmin.x b.bmax.x - min b.bmin.x b.bmax.x,
             max b.bmin.y b.bmax.y - min b.bmin.y b.bmax.y,
             max b.bmin.z b.bmax.z - min b.bmin.z b.bmax.z⟩ := by
          rw [getSize_setFromObject o b hcb hone.1 hone.2.1 hone.2.2, hsc]
          norm_num
        have hσ : (0:Rat) ≤ 3/2 / maxDim3 (getSize (setFromObject o)) :=
          le_of_lt (div_pos (by norm_num) hd)
        have hsca : (centerAndFit o).scale =
            ⟨3/2 / maxDim3 (getSize (setFromObject o)),
             3/2 / maxDim3 (getSize (setFromObject o)),
             3/2 / maxDim3 (getSize (setFromObject o))⟩ := by
          rw [centerAndFit_def]
          simp only [if_pos hd]
        have hcb' : (centerAndFit o).contentBox = some b := by
          rw [centerAndFit_def]
          exact hcb
        have hs2 : getSize (setFromObject (centerAndFit o)) =
            ⟨3/2 / maxDim3 (getSize (setFromObject o)) *
               (max b.bmin.x b.bmax.x - min b.bmin.x b.bmax.x),
             3/2 / maxDim3 (getSize (setFromObject o)) *
               (max b.bmin.y b.bmax.y - min b.bmin.y b.bmax.y),
             3/2 / maxDim3 (getSize (setFromObject o)) *
               (max b.bmin.z b.bmax.z - min b.bmin.z b.bmax.z)⟩ := by
          rw [getSize_setFromObject (centerAndFit o) b hcb'
            (by rw [hsca]; exact hσ) (by rw [hsca]; exact hσ)
            (by rw [hsca]; exact hσ), hsca]
        rw [hs2]
        have hmul := maxDim3_mul (3/2 / maxDim3 (getSize (setFromObject o)))
          ⟨max b.bmin.x b.bmax.x - min b.bmin.x b.bmax.x,
           max b.bmin.y b.bmax.y - min b.bmin.y b.bmax.y,
           max b.bmin.z b.bmax.z - min b.bmin.z b.bmax.z⟩ hσ
        rw [hmul, ← hs1]
        exact div_mul_cancel₀ (3/2 : Rat) (ne_of_gt hd)
  · intro hd0
    rw [centerAndFit_def]
    simp only [hd0, lt_irrefl, if_false]

/-- C4, witness: content box `[0,1]×[0,2]×[0,4]` has max dimension 4, the
scale becomes `1.5/4 = 3/8` and the post-scale max dimension is `1.5`. -/
theorem centerAndFit_scale_spec_witness :
    exFitUnit.scale = ⟨1, 1, 1⟩ ∧
    (0:Rat) < maxDim3 (getSize (setFromObject exFitUnit)) ∧
    (centerAndFit exFitUnit).scale = ⟨3/8, 3/8, 3/8⟩ ∧
    maxDim3 (getSize (setFromObject (centerAndFit exFitUnit))) = 3/2 := by
  have hd : maxDim3 (getSize (setFromObject exFitUnit)) = 4 := by
    norm_num [exFitUnit, setFromObject, getSize, maxDim3, Vec3.hmul, Vec3.cmin,
      Vec3.cmax, Vec3.add_def, Vec3.sub_def, min_def, max_def]
  have h := (centerAndFit_scale_spec exFitUnit rfl).1 (by rw [hd]; norm_num)
  refine ⟨rfl, by rw [hd]; norm_num, ?_, h.2⟩
  rw [h.1, hd]
  norm_num

/-! ## The load state machine: branch characterizations -/

theorem loadPlanet_eq_noscene (s : ViewerState) (hset : s.sceneSet = false) :
    loadPlanet s = s := by
  obtain ⟨ss, cid, ld, pr, sn, pend, dl⟩ := s
  dsimp only at hset
  subst hset
  rfl

theorem loadPlanet_eq_none (s : ViewerState) (hset : s.sceneSet = true)
    (hp : s.planetRef = none) :
    loadPlanet s =
      { s with loading := true
               currentLoadId := s.currentLoadId + 1
               pending := (s.currentLoadId + 1) :: s.pending } := by
  obtain ⟨ss, cid, ld, pr, sn, pend, dl⟩ := s
  dsimp only at hset hp
  subst hset
  subst hp
  rfl

theorem loadPlanet_eq_some (s : ViewerState) (p : Nat)
    (hset : s.sceneSet = true) (hp : s.planetRef = some p) :
    loadPlanet s =
      { s with loading := true
               currentLoadId := s.currentLoadId + 1
               sceneNodes := s.sceneNodes.erase p
               disposedLog := p :: s.disposedLog
               planetRef := none
               pending := (s.currentLoadId + 1) :: s.pending } := by
  obtain ⟨ss, cid, ld, pr, sn, pend, dl⟩ := s
  dsimp only at hset hp
  subst hset
  subst hp
  rfl

theorem onLoadSuccess_eq_stale (s : ViewerState) (id n : Nat)
    (hid : id ≠ s.currentLoadId) :
    onLoadSuccess s id n =
      { s with pending := s.pending.erase id
               disposedLog := n :: s.disposedLog } := by
  obtain ⟨ss, cid, ld, pr, sn, pend, dl⟩ := s
  dsimp only at hid
  rw [onLoadSuccess, if_pos hid]

theorem onLoadSuccess_eq_current (s : ViewerState) (id n : Nat)
    (hid : id = s.currentLoadId) :
    onLoadSuccess s id n =
      { s with pending := s.pending.erase id
               sceneNodes := n :: s.sceneNodes
               planetRef := some n
               loading := false } := by
  obtain ⟨ss, cid, ld, pr, sn, pend, dl⟩ := s
  dsimp only at hid
  rw [onLoadSuccess, if_neg (by simp [hid])]

theorem onLoadFailure_eq_current (s : ViewerState) (id : Nat)
    (hid : id = s.currentLoadId) :
    onLoadFailure s id =
      { s with pending := s.pending.erase id
               loading := false } := by
  obtain ⟨ss, cid, ld, pr, sn, pend, dl⟩ := s
  dsimp only at hid
  rw [onLoadFailure, if_pos hid]

theorem onLoadFailure_eq_stale (s : ViewerState) (id : Nat)
    (hid : id ≠ s.currentLoadId) :
    onLoadFailure s id = { s with pending := s.pending.erase id } := by
  obtain ⟨ss, cid, ld, pr, sn, pend, dl⟩ := s
  dsimp only at hid
  rw [onLoadFailure, if_neg hid]

/-! ## The invariant -/

theorem inv_init : Inv initState := by
  refine ⟨List.nodup_nil, ?_, ?_, rfl⟩
  · intro i hi
    simp [initState] at hi
  · intro p hp
    simp [initState] at hp

theorem inv_step {s t : ViewerState} (h : Inv s) (hst : Step s t) : Inv t := by
  obtain ⟨hnodup, hbound, hres, hscene⟩ := h
  cases hst with
  | request =>
      by_cases hset : s.sceneSet = true
      · cases hp : s.planetRef with
        | none =>
            rw [loadPlanet_eq_none s hset hp]
            refine ⟨?_, ?_, ?_, ?_⟩
            · rw [List.nodup_cons]
              refine ⟨fun hmem => ?_, hnodup⟩
              have := hbound _ hmem
              omega
            · intro i hi
              rcases List.mem_cons.mp hi with rfl | hi'
              · exact le_refl _
              · exact le_trans (hbound i hi') (Nat.le_succ _)
            · intro p hp2
              dsimp only at hp2
              rw [hp] at hp2
              exact absurd hp2 (by simp)
            · dsimp only
              exact hscene
        | some p =>
            rw [loadPlanet_eq_some s p hset hp]
            refine ⟨?_, ?_, ?_, ?_⟩
            · rw [List.nodup_cons]
              refine ⟨fun hmem => ?_, hnodup⟩
              have := hbound _ hmem
              omega
            · intro i hi
              rcases List.mem_cons.mp hi with rfl | hi'
              · exact le_refl _
              · exact le_trans (hbound i hi') (Nat.le_succ _)
            · intro q hq
              dsimp only at hq
              exact absurd hq (by simp)
            · dsimp only
              rw [hscene, hp]
              simp [planetList]
      · have hset' : s.sceneSet = false := by
          cases hval : s.sceneSet
          · rfl
          · exact absurd hval hset
        rw [loadPlanet_eq_noscene s hset']
        exact ⟨hnodup, hbound, hres, hscene⟩
  | success id n hmem =>
      by_cases hid : id = s.currentLoadId
      · have hplan : s.planetRef = none := by
          cases hp : s.planetRef with
          | none => rfl
          | some p => exact absurd (hid ▸ hmem) (hres p hp)
        rw [onLoadSuccess_eq_current s id n hid]
        refine ⟨List.Nodup.erase id hnodup, ?_, ?_, ?_⟩
        · intro i hi
          exact hbound i (List.mem_of_mem_erase hi)
        · intro p hp
          dsimp only
          rw [hid]
          exact List.Nodup.not_mem_erase hnodup
        · dsimp only
          rw [hscene, hplan]
          simp [planetList]
      · rw [onLoadSuccess_eq_stale s id n hid]
        refine ⟨List.Nodup.erase id hnodup, ?_, ?_, hscene⟩
        · intro i hi
          exact hbound i (List.mem_of_mem_erase hi)
        · intro p hp hmem2
          exact hres p hp (List.mem_of_mem_erase hmem2)
  | failure id hmem =>
      by_cases hid : id = s.currentLoadId
      · rw [onLoadFailure_eq_current s id hid]
        refine ⟨List.Nodup.erase id hnodup, ?_, ?_, hscene⟩
        · intro i hi
          exact hbound i (List.mem_of_mem_erase hi)
        · intro p hp hmem2
          exact hres p hp (List.mem_of_mem_erase hmem2)
      · rw [onLoadFailure_eq_stale s id hid]
        refine ⟨List.Nodup.erase id hnodup, ?_, ?_, hscene⟩
        · intro i hi
          exact hbound i (List.mem_of_mem_erase hi)
        · intro p hp hmem2
          exact hres p hp (List.mem_of_mem_erase hmem2)

theorem reachable_inv {s : ViewerState} (h : Reachable s) : Inv s := by
  induction h with
  | refl => exact inv_init
  | tail hab hbc ih => exact inv_step ih hbc

/-- C1: in any reachable state, a load-success callback whose captured
identifier is not the current one (all pending identifiers are at most the
current, so "current" means most recently issued) only hands its node to the
disposal routine — loading flag, displayed model and scene stay untouched;
the callback whose identifier is current attaches its node, records it as
the displayed model, and clears the loading flag. -/
theorem success_attaches_only_current (s : ViewerState) (hr : Reachable s)
    (id n : Nat) (hid : id ∈ s.pending) :
    id ≤ s.currentLoadId ∧
    (id ≠ s.currentLoadId →
      onLoadSuccess s id n =
        { s with pending := s.pending.erase id
                 disposedLog := n :: s.disposedLog }) ∧
    (id = s.currentLoadId →
      (onLoadSuccess s id n).planetRef = some n ∧
      (onLoadSuccess s id n).sceneNodes = [n] ∧
      (onLoadSuccess s id n).loading = false) := by
  obtain ⟨hnodup, hbound, hres, hscene⟩ := reachable_inv hr
  refine ⟨hbound id hid, fun hne => onLoadSuccess_eq_stale s id n hne,
    fun heq => ?_⟩
  have hplan : s.planetRef = none := by
    cases hp : s.planetRef with
    | none => rfl
    | some p => exact absurd (heq ▸ hid) (hres p hp)
  rw [onLoadSuccess_eq_current s id n heq]
  refine ⟨rfl, ?_, rfl⟩
  dsimp only
  rw [hscene, hplan]
  rfl

/-- C1, witness: after one request from the initial state, the success of
load 1 (the current load) attaches node 7, records it, and clears the
loading flag. -/
theorem success_attaches_only_current_witness :
    1 ∈ (loadPlanet initState).pending ∧
    (onLoadSuccess (loadPlanet initState) 1 7).planetRef = some 7 ∧
    (onLoadSuccess (loadPlanet initState) 1 7).sceneNodes = [7] ∧
    (onLoadSuccess (loadPlanet initState) 1 7).loading = false := by
  have hreach : Reachable (loadPlanet initState) :=
    Relation.ReflTransGen.single (Step.request initState)
  have hmem : 1 ∈ (loadPlanet initState).pending := by decide
  have h := success_attaches_only_current (loadPlanet initState) hreach 1 7 hmem
  obtain ⟨-, -, h3⟩ := h
  obtain ⟨ha, hb, hc⟩ := h3 (by decide)
  exact ⟨hmem, ha, hb, hc⟩

/-- C2: in every reachable state — after any interleaving of requests and
load completions — the scene holds at most one planet node, and the
attached-planet set is exactly what the displayed-model reference says. -/
theorem scene_holds_at_most_one_planet (s : ViewerState) (hr : Reachable s) :
    s.sceneNodes.length ≤ 1 ∧ s.sceneNodes = planetList s.planetRef := by
  obtain ⟨-, -, -, hscene⟩ := reachable_inv hr
  refine ⟨?_, hscene⟩
  rw [hscene]
  cases s.planetRef <;> simp [planetList]

/-- C2, witness: after a request and its successful completion, exactly one
planet is attached. -/
theorem scene_holds_at_most_one_planet_witness :
    (onLoadSuccess (loadPlanet initState) 1 7).sceneNodes.length ≤ 1 ∧
    (onLoadSuccess (loadPlanet initState) 1 7).sceneNodes =
      planetList (onLoadSuccess (loadPlanet initState) 1 7).planetRef := by
  have hreach : Reachable (onLoadSuccess (loadPlanet initState) 1 7) := by
    refine Relation.ReflTransGen.tail
      (Relation.ReflTransGen.single (Step.request initState)) ?_
    exact Step.success (loadPlanet initState) 1 7 (by decide)
  exact scene_holds_at_most_one_planet _ hreach

/-- C6: a `loadPlanet` call that finds a displayed model detaches it from
the scene, hands it to the disposal routine and clears the reference, all in
the synchronous request path (before the loader can call back, hence
regardless of the new load later succeeding or failing); the same call sets
the loading flag and issues the fresh identifier. -/
theorem loadPlanet_disposes_previous_model (s : ViewerState) (p : Nat)
    (hset : s.sceneSet = true) (hp : s.planetRef = some p) :
    loadPlanet s =
      { s with loading := true
               currentLoadId := s.currentLoadId + 1
               sceneNodes := s.sceneNodes.erase p
               disposedLog := p :: s.disposedLog
               planetRef := none
               pending := (s.currentLoadId + 1) :: s.pending } :=
  loadPlanet_eq_some s p hset hp

/-- C6, witness: with node 7 displayed, a new request detaches and disposes
it and clears the reference. -/
theorem loadPlanet_disposes_previous_model_witness :
    (loadPlanet (onLoadSuccess (loadPlanet initState) 1 7)).disposedLog =
      [7] ∧
    (loadPlanet (onLoadSuccess (loadPlanet initState) 1 7)).planetRef =
      none ∧
    (loadPlanet (onLoadSuccess (loadPlanet initState) 1 7)).sceneNodes =
      [] := by
  have h := loadPlanet_disposes_previous_model
    (onLoadSuccess (loadPlanet initState) 1 7) 7 (by decide) (by decide)
  rw [h]
  refine ⟨by decide, rfl, by decide⟩

/-- C8: in any reachable state, a load-failure callback with the current
identifier clears the loading flag and nothing else — nothing is attached
and the displayed model was and stays none (the request that issued the
current load cleared it); with a stale identifier the failure has no
observable effect on the viewer state. -/
theorem failure_clears_flag_only_when_current (s : ViewerState)
    (hr : Reachable s) (id : Nat) (hid : id ∈ s.pending) :
    (id = s.currentLoadId →
      onLoadFailure s id =
        { s with pending := s.pending.erase id, loading := false } ∧
      s.planetRef = none ∧
      (onLoadFailure s id).planetRef = none ∧
      (onLoadFailure s id).sceneNodes = []) ∧
    (id ≠ s.currentLoadId →
      onLoadFailure s id = { s with pending := s.pending.erase id }) := by
  obtain ⟨hnodup, hbound, hres, hscene⟩ := reachable_inv hr
  refine ⟨fun heq => ?_, fun hne => onLoadFailure_eq_stale s id hne⟩
  have hplan : s.planetRef = none := by
    cases hp : s.planetRef with
    | none => rfl
    | some p => exact absurd (heq ▸ hid) (hres p hp)
  have he := onLoadFailure_eq_current s id heq
  refine ⟨he, hplan, ?_, ?_⟩
  · rw [he]
    dsimp only
    exact hplan
  · rw [he]
    dsimp only
    rw [hscene, hplan]
    rfl

/-- C8, witness: the failure of the only issued (current) load clears the
loading flag; no model is displayed, nothing is attached. -/
theorem failure_clears_flag_only_when_current_witness :
    (onLoadFailure (loadPlanet initState) 1).loading = false ∧
    (onLoadFailure (loadPlanet initState) 1).planetRef = none ∧
    (onLoadFailure (loadPlanet initState) 1).sceneNodes = [] := by
  have h := failure_clears_flag_only_when_current (loadPlanet initState)
    (Relation.ReflTransGen.single (Step.request initState)) 1 (by decide)
  obtain ⟨hcur, -⟩ := h
  obtain ⟨he, -, hpl, hsc⟩ := hcur (by decide)
  refine ⟨?_, hpl, hsc⟩
  rw [he]

/-- C9: one animation tick leaves the whole load state (current identifier,
loading flag, displayed-model reference, scene, logs) untouched and adds the
fixed increment 0.001 to the displayed node's y-rotation exactly when a
displayed model exists; the resize handler also leaves the load state
untouched. -/
theorem frame_and_resize_leave_load_state (f : FrameState)
    (mount : Option (Rat × Rat)) :
    (animate f).viewer = f.viewer ∧
    (animate f).planetRotY =
      (if f.viewer.planetRef.isSome then f.planetRotY + 1/1000
       else f.planetRotY) ∧
    (handleResize f mount).viewer = f.viewer := by
  refine ⟨?_, ?_, ?_⟩
  · unfold animate
    cases hq : f.viewer.planetRef.isSome <;> simp [hq]
  · unfold animate
    cases hq : f.viewer.planetRef.isSome <;> simp [hq]
  · cases mount with
    | none => rfl
    | some wh =>
        cases wh
        rfl

/-- C10: a `loadPlanet` call made while the scene reference is unset returns
with no effect at all — no identifier increment, no loading flag, no
disposal, no issued load. -/
theorem loadPlanet_noop_when_scene_unset (s : ViewerState)
    (hset : s.sceneSet = false) : loadPlanet s = s :=
  loadPlanet_eq_noscene s hset

/-- C10, witness: on the torn-down viewer the call leaves the state exactly
as it was. -/
theorem loadPlanet_noop_when_scene_unset_witness :
    loadPlanet exTornDown = exTornDown :=
  loadPlanet_noop_when_scene_unset exTornDown rfl

end WebCosmic
